import Mathlib

/-!
Verification of the Time-Range Normalization & Schedule-Coverage Engine of the
Apple Music radio schedule scraper.

The Python sources (`scrape_apple_music_schedule.py`, `verify_coverage.py`) are
shallowly embedded below.  Strings are modelled as `List Char`; each regular
expression used by the code is embedded as a deterministic backtracking matcher
whose list of alternatives is ordered exactly as the Python `re` engine explores
them (greedy quantifiers first, alternation left to right, optional groups
"present" before "absent"), so the first alternative that completes is the match
the `re` engine reports.  The `\s*` occurrences in the embedded patterns are
safe to treat as purely greedy because in every pattern the character class
that follows `\s*` is disjoint from whitespace.  Python's `None`-able results
are modelled with `Option`.
-/

set_option maxRecDepth 4000

namespace Sched

/-- AM/PM marker of a 12-hour clock reading. -/
inductive Period where
  | am : Period
  | pm : Period
deriving DecidableEq, Fintype

/-- The opposite AM/PM marker (the code's `'AM' if p == 'PM' else 'PM'`). -/
def Period.flip : Period → Period
  | Period.am => Period.pm
  | Period.pm => Period.am

/-- Shorthand: string literal to character list. -/
def str (s : String) : List Char := s.toList

/-- ASCII decimal digit test (the inputs' `\d`). -/
def isDigitCh (c : Char) : Bool := '0' ≤ c && c ≤ '9'

/-- Value of a decimal digit character. -/
def digitVal (c : Char) : Nat := c.toNat - '0'.toNat

/-- Whitespace as matched by `\s` / stripped by `str.strip()` on these inputs. -/
def isSpaceCh (c : Char) : Bool := c == ' ' || c == '\t' || c == '\n' || c == '\r'

/-- The dash class `[–-]` (en-dash or hyphen). -/
def isDashCh (c : Char) : Bool := c == '–' || c == '-'

/-- ASCII uppercase conversion (`str.upper()` on these inputs). -/
def toUpperCh (c : Char) : Char :=
  if 'a' ≤ c && c ≤ 'z' then Char.ofNat (c.toNat - 32) else c

/-- ASCII lowercase conversion (`str.lower()` on these inputs). -/
def toLowerCh (c : Char) : Char :=
  if 'A' ≤ c && c ≤ 'Z' then Char.ofNat (c.toNat + 32) else c

/-- `str.upper()`. -/
def upperS (s : List Char) : List Char := s.map toUpperCh

/-- `str.lower()`. -/
def lowerS (s : List Char) : List Char := s.map toLowerCh

/-- `str.islower()` on a single character (ASCII). -/
def isLowerAlphaCh (c : Char) : Bool := 'a' ≤ c && c ≤ 'z'

/-- `str.isupper()` on a single character (ASCII). -/
def isUpperAlphaCh (c : Char) : Bool := 'A' ≤ c && c ≤ 'Z'

/-- `[A-Za-z]`. -/
def isAlphaCh (c : Char) : Bool := isLowerAlphaCh c || isUpperAlphaCh c

/-- `str.strip()`: drop whitespace from both ends. -/
def trimCh (s : List Char) : List Char :=
  ((s.dropWhile isSpaceCh).reverse.dropWhile isSpaceCh).reverse

/-- Python `needle in hay` substring test. -/
def containsSub (needle : List Char) : List Char → Bool
  | [] => needle.isEmpty
  | c :: r => needle.isPrefixOf (c :: r) || containsSub needle r

/-- Python `hay.replace(needle, '', 1)`: delete the leftmost occurrence. -/
def removeOnce (needle : List Char) : List Char → List Char
  | [] => []
  | c :: r =>
    if needle.isPrefixOf (c :: r) then (c :: r).drop needle.length
    else c :: removeOnce needle r

/-!  ### A tiny nondeterministic matcher monad

`MP α` maps an input suffix to the list of `(result, remaining suffix)`
alternatives in the order the `re` engine would explore them; the overall match
reported by `re` is the head of the final list.  Every primitive only consumes
characters from the front, so `input.length - rest.length` is the matched
length. -/

def MP (α : Type) : Type := List Char → List (α × List Char)

/-- Monadic bind on matchers; preserves the backtracking exploration order. -/
def mpBind {α β : Type} (p : MP α) (f : α → MP β) : MP β :=
  fun s => (p s).flatMap (fun ar => f ar.1 ar.2)

/-- Matcher returning `a` without consuming input. -/
def mpPure {α : Type} (a : α) : MP α := fun s => [(a, s)]

/-- Map over a matcher's result. -/
def mpMap {α β : Type} (f : α → β) (p : MP α) : MP β :=
  fun s => (p s).map (fun ar => (f ar.1, ar.2))

/-- Single character matching a predicate. -/
def mpChar (pred : Char → Bool) : MP Char := fun s =>
  match s with
  | c :: r => if pred c then [(c, r)] else []
  | [] => []

/-- Greedy `\s*` (no backtracking needed: whatever follows is never whitespace). -/
def mpSpaces : MP Unit := fun s => [((), s.dropWhile isSpaceCh)]

/-- Optional group `(?:p)?` with a default value: "present" alternative first. -/
def mpOpt {α : Type} (p : MP α) (dflt : α) : MP α := fun s => p s ++ [(dflt, s)]

/-- Case-sensitive literal. -/
def mpLit (lit : List Char) : MP Unit := fun s =>
  if lit.isPrefixOf s then [((), s.drop lit.length)] else []

/-- Case-insensitive literal (`lit` given in uppercase). -/
def mpLitCI (lit : List Char) : MP Unit := fun s =>
  if (s.take lit.length).map toUpperCh == lit then [((), s.drop lit.length)] else []

/-- `\d{1,2}` (greedy: the two-digit reading is preferred), as a number. -/
def mpDigits12 : MP Nat := fun s =>
  match s with
  | c1 :: c2 :: r =>
    if isDigitCh c1 && isDigitCh c2 then
      [(digitVal c1 * 10 + digitVal c2, r), (digitVal c1, c2 :: r)]
    else if isDigitCh c1 then [(digitVal c1, c2 :: r)]
    else []
  | [c1] => if isDigitCh c1 then [(digitVal c1, [])] else []
  | [] => []

/-- `\d{2}` as a number. -/
def mpDigits2 : MP Nat := fun s =>
  match s with
  | c1 :: c2 :: r =>
    if isDigitCh c1 && isDigitCh c2 then [(digitVal c1 * 10 + digitVal c2, r)] else []
  | _ => []

/-- `:(\d{2})`. -/
def mpColonMM : MP Nat := mpBind (mpChar (fun c => c == ':')) (fun _ => mpDigits2)

/-- `(?::(\d{2}))?`, minute defaulting to 0 (`int(... or 0)`). -/
def mpOptColonMM : MP Nat := mpOpt mpColonMM 0

/-- `(AM|PM)` under `re.I` (also covers patterns applied to upper-cased text). -/
def mpAmPm : MP Period := fun s =>
  match s with
  | c1 :: c2 :: r =>
    if (c1 == 'A' || c1 == 'a') && (c2 == 'M' || c2 == 'm') then [(Period.am, r)]
    else if (c1 == 'P' || c1 == 'p') && (c2 == 'M' || c2 == 'm') then [(Period.pm, r)]
    else []
  | _ => []

/-- `[–-]`. -/
def mpDash : MP Unit := mpMap (fun _ => ()) (mpChar isDashCh)

/-- Discard a matcher's value. -/
def mpU {α : Type} (p : MP α) : MP Unit := mpMap (fun _ => ()) p

/-- Sequencing of `Unit` matchers. -/
def mpAndThen (p q : MP Unit) : MP Unit := mpBind p (fun _ => q)

/-- Concatenation of a pattern list. -/
def mpCat (ps : List (MP Unit)) : MP Unit := ps.foldr mpAndThen (mpPure ())

/-- Group capture: the substring a sub-matcher consumed. -/
def mpCapStr {α : Type} (p : MP α) : MP (List Char) := fun s =>
  (p s).map (fun ar => (s.take (s.length - ar.2.length), ar.2))

/-- Run a matcher the way `re` does: report the first completed alternative,
as the pair (number of characters consumed, value). -/
def runM {α : Type} (p : MP α) (s : List Char) : Option (Nat × α) :=
  match (p s).head? with
  | some (a, r) => some (s.length - r.length, a)
  | none => none

/-!  ### `re` driver functions: `re.match` / `re.search` / `re.findall` / `re.sub` -/

/-- `re.match`: anchored at the start, trailing text allowed. -/
def reMatch {α : Type} (p : MP α) (s : List Char) : Option α :=
  match runM p s with
  | some (_, a) => some a
  | none => none

/-- Helper for `re.search`: first position (leftmost) with a match. -/
def searchAux {α : Type} (p : MP α) : Nat → List Char → Option α
  | 0, _ => none
  | fuel + 1, s =>
    match runM p s with
    | some (_, a) => some a
    | none =>
      match s with
      | [] => none
      | _ :: rest => searchAux p fuel rest

/-- `re.search`. -/
def reSearch {α : Type} (p : MP α) (s : List Char) : Option α :=
  searchAux p (s.length + 1) s

/-- Helper for `re.findall`: non-overlapping leftmost matches, scanning on. -/
def findAllAux {α : Type} (p : MP α) : Nat → List Char → List α
  | 0, _ => []
  | fuel + 1, s =>
    match s with
    | [] => []
    | c :: rest =>
      match runM p s with
      | some (len, a) => a :: findAllAux p fuel (s.drop len)
      | none =>
        match c with
        | _ => findAllAux p fuel rest

/-- `re.findall` (all patterns used consume at least one character). -/
def reFindAll {α : Type} (p : MP α) (s : List Char) : List α :=
  findAllAux p s.length s

/-- Helper for a global `re.sub`: `p` yields the replacement text. -/
def subAllAux (p : MP (List Char)) : Nat → List Char → List Char
  | 0, s => s
  | fuel + 1, s =>
    match s with
    | [] => []
    | c :: rest =>
      match runM p s with
      | some (len, repl) => repl ++ subAllAux p fuel (s.drop len)
      | none => c :: subAllAux p fuel rest

/-- Global `re.sub` (all patterns used consume at least one character). -/
def reSubAll (p : MP (List Char)) (s : List Char) : List Char :=
  subAllAux p s.length s

/-- `re.sub` with a `^`-anchored pattern and empty replacement: at most one hit. -/
def reSubAnchoredDel {α : Type} (p : MP α) (s : List Char) : List Char :=
  match runM p s with
  | some (len, _) => s.drop len
  | none => s

/-!  ### `_parse_time_component`  (scrape_apple_music_schedule.py lines 251-270)

`re.match(r'(\d{1,2})(?::(\d{2}))?(?:\s*)?(AM|PM)', time_str, re.I)`, else
`re.match(r'(\d{1,2})(?::(\d{2}))?', time_str)`, else `(None, None, None)`. -/

/-- The pattern `(\d{1,2})(?::(\d{2}))?(?:\s*)?(AM|PM)` (re.I). -/
def tcAmPmM : MP (Nat × Nat × Period) :=
  mpBind mpDigits12 (fun h =>
    mpBind mpOptColonMM (fun m =>
      mpBind mpSpaces (fun _ =>
        mpMap (fun p => (h, m, p)) mpAmPm)))

/-- The pattern `(\d{1,2})(?::(\d{2}))?`. -/
def tcNumM : MP (Nat × Nat) :=
  mpBind mpDigits12 (fun h => mpMap (fun m => (h, m)) mpOptColonMM)

/-- `_parse_time_component`: `(hour, minute, period)`, `none` for the
`(None, None, None)` soft failure. -/
def parseTimeComponent (time_str : List Char) : Option (Nat × Nat × Option Period) :=
  let t := trimCh time_str
  match reMatch tcAmPmM t with
  | some (h, m, p) => some (h, m, some p)
  | none =>
    match reMatch tcNumM t with
    | some (h, m) => some (h, m, none)
    | none => none

/-!  ### `_convert_12h_to_24h`  (scrape_apple_music_schedule.py lines 272-344) -/

/-- A side with a period: `\d{1,2}(?::\d{2})?\s*(?:AM|PM)`. -/
def sideWithPM : MP Unit :=
  mpCat [mpU mpDigits12, mpU mpOptColonMM, mpSpaces, mpU mpAmPm]

/-- A bare side: `\d{1,2}(?::\d{2})?`. -/
def sideBareM : MP Unit :=
  mpCat [mpU mpDigits12, mpU mpOptColonMM]

/-- `\s*[–-]\s*`. -/
def sepM : MP Unit := mpCat [mpSpaces, mpDash, mpSpaces]

/-- Pattern 1: both sides carry AM/PM; the two capture groups. -/
def cvtP1 : MP (List Char × List Char) :=
  mpBind (mpCapStr sideWithPM) (fun g1 =>
    mpBind sepM (fun _ =>
      mpMap (fun g2 => (g1, g2)) (mpCapStr sideWithPM)))

/-- Pattern 2: only the end carries AM/PM. -/
def cvtP2 : MP (List Char × List Char) :=
  mpBind (mpCapStr sideBareM) (fun g1 =>
    mpBind sepM (fun _ =>
      mpMap (fun g2 => (g1, g2)) (mpCapStr sideWithPM)))

/-- Pattern 3: no AM/PM on either side. -/
def cvtP3 : MP (List Char × List Char) :=
  mpBind (mpCapStr sideBareM) (fun g1 =>
    mpBind sepM (fun _ =>
      mpMap (fun g2 => (g1, g2)) (mpCapStr sideBareM)))

/-- The prioritized `re.match` loop over patterns 1-3. -/
def match12Any (s : List Char) : Option (List Char × List Char) :=
  match reMatch cvtP1 s with
  | some g => some g
  | none =>
    match reMatch cvtP2 s with
    | some g => some g
    | none => reMatch cvtP3 s

/-- Missing-period inference (lines 304-318), exactly the code's branch order. -/
def inferPeriods (start_hour end_hour : Nat) (start_period end_period : Option Period) :
    Option Period × Option Period :=
  match start_period, end_period with
  | some p, none =>
    if end_hour < start_hour then (some p, some p.flip) else (some p, some p)
  | none, some p =>
    if start_hour == 12 && p == Period.am then (some Period.am, some p)
    else if start_hour == 12 && p == Period.pm then (some Period.pm, some p)
    else if start_hour > end_hour then (some p.flip, some p)
    else (some p, some p)
  | sp, ep => (sp, ep)

/-- 12-hour to 24-hour hour conversion (lines 321-333). -/
def to24Hour (hour : Nat) (period : Option Period) : Nat :=
  if period == some Period.pm && hour != 12 then hour + 12
  else if period == some Period.am && hour == 12 then 0
  else hour

/-- Decimal digits of a natural number. -/
def natDigitsAux : Nat → Nat → List Char → List Char
  | 0, _, acc => acc
  | fuel + 1, n, acc =>
    if n < 10 then Char.ofNat (48 + n) :: acc
    else natDigitsAux fuel (n / 10) (Char.ofNat (48 + n % 10) :: acc)

/-- Decimal rendering of a natural number. -/
def natDigits (n : Nat) : List Char := natDigitsAux (n + 1) n []

/-- Python `f"{n:02d}"` for a natural number. -/
def fmt02 (n : Nat) : List Char :=
  if n < 10 then '0' :: natDigits n else natDigits n

/-- Python `f"{n:02d}"` for an integer. -/
def fmt02i (n : Int) : List Char :=
  if n < 0 then '-' :: natDigits n.natAbs else fmt02 n.toNat

/-- `f"{h:02d}:{m:02d}"`. -/
def fmtHM (h m : Nat) : List Char := fmt02 h ++ ':' :: fmt02 m

/-- `_convert_12h_to_24h`: canonicalize a 12-hour time slot to
`"HH:MM – HH:MM"`; the input is returned unchanged when it is empty, when no
pattern matches, or on the (unreachable here) exception path. -/
def convert12to24 (time_slot : List Char) : List Char :=
  if time_slot.isEmpty then time_slot
  else
    match match12Any time_slot with
    | none => time_slot
    | some (start_str, end_str) =>
      match parseTimeComponent start_str, parseTimeComponent end_str with
      | some (sh, sm, sp0), some (eh, em, ep0) =>
        match inferPeriods sh eh sp0 ep0 with
        | (sp, ep) =>
          fmtHM (to24Hour sh sp) sm ++ (str " – ") ++ fmtHM (to24Hour eh ep) em
      | _, _ => time_slot

/-!  ### `_convert_utc_to_pacific`  (scrape_apple_music_schedule.py lines 346-400)

The daylight-saving flag comes from `datetime.now` in the code; it is an
explicit parameter here, fixed for a conversion run. -/

/-- The 24-hour range pattern `(\d{1,2}):(\d{2})\s*[–-]\s*(\d{1,2}):(\d{2})`. -/
def utc24M : MP (Nat × Nat × Nat × Nat) :=
  mpBind mpDigits12 (fun sh =>
    mpBind mpColonMM (fun sm =>
      mpBind sepM (fun _ =>
        mpBind mpDigits12 (fun eh =>
          mpMap (fun em => (sh, sm, eh, em)) mpColonMM))))

/-- `re.search(r'(AM|PM)', s, re.I)`: is an AM/PM marker present anywhere? -/
def hasAmPm (s : List Char) : Bool := (reSearch mpAmPm s).isSome

/-- The single integer hour offset selected for a run (line 377):
7 during daylight saving, 8 otherwise. -/
def pacOffset (is_dst : Bool) : Int := if is_dst then 7 else 8

/-- The code's hour shift (lines 380-390): subtract the offset, then wrap by
adding 24 when negative and subtracting 24 when ≥ 24. -/
def shiftHourPy (hour offset : Int) : Int :=
  if hour - offset < 0 then hour - offset + 24
  else if hour - offset ≥ 24 then hour - offset - 24
  else hour - offset

/-- The inverse shift by `+offset` with the same wraparound rule. -/
def inverseShiftHour (hour offset : Int) : Int :=
  if hour + offset < 0 then hour + offset + 24
  else if hour + offset ≥ 24 then hour + offset - 24
  else hour + offset

/-- The conversion core applied once the 24-hour components are in hand:
shift both hours by the run's offset; minutes are passed through. -/
def convertRangePacific (is_dst : Bool) (sh sm eh em : Nat) : Int × Nat × Int × Nat :=
  (shiftHourPy sh (pacOffset is_dst), sm, shiftHourPy eh (pacOffset is_dst), em)

/-- `_convert_utc_to_pacific`; `none` models the `return None` on empty input. -/
def convertUTCtoPacific (is_dst : Bool) (time_slot_utc : List Char) : Option (List Char) :=
  if time_slot_utc.isEmpty then none
  else
    let render : Nat × Nat × Nat × Nat → List Char := fun q =>
      match convertRangePacific is_dst q.1 q.2.1 q.2.2.1 q.2.2.2 with
      | (psh, sm, peh, em) => fmt02i psh ++ ':' :: fmt02 sm ++ (str " – ") ++ fmt02i peh ++ ':' :: fmt02 em
    match reMatch utc24M time_slot_utc with
    | some q => some (render q)
    | none =>
      if hasAmPm time_slot_utc then
        match reMatch utc24M (convert12to24 time_slot_utc) with
        | some q => some (render q)
        | none => some time_slot_utc
      else some time_slot_utc

/-!  ### `_parse_time_to_minutes`  (scrape_apple_music_schedule.py lines 765-798)
and `parse_time_to_minutes`  (verify_coverage.py lines 8-36) -/

/-- `(\d{1,2})(?::(\d{2}))?\s*(AM|PM)` on the upper-cased input. -/
def minsAmPmM : MP (Nat × Nat × Period) :=
  mpBind mpDigits12 (fun h =>
    mpBind mpOptColonMM (fun m =>
      mpBind mpSpaces (fun _ =>
        mpMap (fun p => (h, m, p)) mpAmPm)))

/-- 12-hour to 24-hour conversion step shared by the minute parsers. -/
def hour24Of (hour : Nat) (period : Option Period) : Nat :=
  match period with
  | some Period.pm => if hour != 12 then hour + 12 else hour
  | some Period.am => if hour == 12 then 0 else hour
  | none => hour

/-- The scraper's `_parse_time_to_minutes`: tries the AM/PM pattern then the
bare pattern, keeping the first match whose hour and minute pass validation;
`-1` otherwise. -/
def parseTimeToMinutes (time_str : List Char) : Int :=
  if time_str.isEmpty then -1
  else
    let t := upperS (trimCh time_str)
    let try1 : Option Int :=
      match reMatch minsAmPmM t with
      | some (h, m, p) =>
        let h24 := hour24Of h (some p)
        if h24 ≤ 23 && m ≤ 59 then some (Int.ofNat (h24 * 60 + m)) else none
      | none => none
    match try1 with
    | some v => v
    | none =>
      match reMatch tcNumM t with
      | some (h, m) => if h ≤ 23 && m ≤ 59 then Int.ofNat (h * 60 + m) else -1
      | none => -1

/-- `(\d{1,2}):(\d{2})` of the verifier's 24-hour branch. -/
def verif24M : MP (Nat × Nat) :=
  mpBind mpDigits12 (fun h => mpMap (fun m => (h, m)) mpColonMM)

/-- The verifier's `parse_time_to_minutes`: 24-hour `HH:MM` first (without any
range validation), then the 12-hour fallback; `-1` when neither matches. -/
def parseTimeToMinutesVerify (time_str : List Char) : Int :=
  if time_str.isEmpty then -1
  else
    let t := upperS (trimCh time_str)
    match reMatch verif24M t with
    | some (h, m) => Int.ofNat (h * 60 + m)
    | none =>
      match reMatch minsAmPmM t with
      | some (h, m, p) => Int.ofNat (hour24Of h (some p) * 60 + m)
      | none => -1

/-!  ### Time-slot extraction  (scrape_apple_music_schedule.py lines 463-494) -/

/-- `\d{1,2}:\d{2}` (minutes required). -/
def hhmmU : MP Unit := mpCat [mpU mpDigits12, mpU mpColonMM]

/-- `(?:AM|PM)?`. -/
def optAmPmU : MP Unit := mpOpt (mpU mpAmPm) ()

/-- The `[·•]` separator glyph. -/
def glyphM : MP Unit := mpU (mpChar (fun c => c == '·' || c == '•'))

/-- `LIVE\s*[·•]?\s*` (re.I). -/
def liveLeadM : MP Unit :=
  mpCat [mpLitCI (str "LIVE"), mpSpaces, mpOpt glyphM (), mpSpaces]

/-- `re.sub(r'^LIVE\s*[·•]?\s*', '', text, flags=re.I)`. -/
def stripLiveLeading (full_text : List Char) : List Char :=
  reSubAnchoredDel liveLeadM full_text

/-- Extraction pattern `\d{1,2}:\d{2}\s*(?:AM|PM)?\s*[–-]\s*\d{1,2}:\d{2}\s*(?:AM|PM)`. -/
def extA : MP (List Char) :=
  mpCapStr (mpCat [hhmmU, mpSpaces, optAmPmU, mpSpaces, mpDash, mpSpaces, hhmmU, mpSpaces, mpU mpAmPm])

/-- Extraction pattern `\d{1,2}:\d{2}\s*[–-]\s*\d{1,2}:\d{2}\s*(?:AM|PM)`. -/
def extB : MP (List Char) :=
  mpCapStr (mpCat [hhmmU, mpSpaces, mpDash, mpSpaces, hhmmU, mpSpaces, mpU mpAmPm])

/-- Extraction pattern `\d{1,2}:\d{2}\s*(?:AM|PM)?\s*[–-]\s*\d{1,2}\s*(?:AM|PM)`. -/
def extC : MP (List Char) :=
  mpCapStr (mpCat [hhmmU, mpSpaces, optAmPmU, mpSpaces, mpDash, mpSpaces, mpU mpDigits12, mpSpaces, mpU mpAmPm])

/-- Extraction pattern `\d{1,2}\s*(?:AM|PM)\s*[–-]\s*\d{1,2}\s*(?:AM|PM)`. -/
def extD : MP (List Char) :=
  mpCapStr (mpCat [mpU mpDigits12, mpSpaces, mpU mpAmPm, mpSpaces, mpDash, mpSpaces, mpU mpDigits12, mpSpaces, mpU mpAmPm])

/-- Extraction pattern `\d{1,2}:\d{2}\s*[–-]\s*\d{1,2}\s*(?:AM|PM)`. -/
def extE : MP (List Char) :=
  mpCapStr (mpCat [hhmmU, mpSpaces, mpDash, mpSpaces, mpU mpDigits12, mpSpaces, mpU mpAmPm])

/-- Extraction pattern `\d{1,2}\s*[–-]\s*\d{1,2}:\d{2}\s*(?:AM|PM)`. -/
def extF : MP (List Char) :=
  mpCapStr (mpCat [mpU mpDigits12, mpSpaces, mpDash, mpSpaces, hhmmU, mpSpaces, mpU mpAmPm])

/-- Extraction pattern `\d{1,2}\s*[–-]\s*\d{1,2}\s*(?:AM|PM)`. -/
def extG : MP (List Char) :=
  mpCapStr (mpCat [mpU mpDigits12, mpSpaces, mpDash, mpSpaces, mpU mpDigits12, mpSpaces, mpU mpAmPm])

/-- The prioritized pattern list of `extract_show_data` (lines 473-481). -/
def extractPatterns : List (MP (List Char)) := [extA, extB, extC, extD, extE, extF, extG]

/-- Lines 483-489: every pattern is run with `re.findall` against both the
original text and the LIVE-stripped text; all matches are collected in order. -/
def collectAllMatches (full_text : List Char) : List (List Char) :=
  let full_text_clean := stripLiveLeading full_text
  extractPatterns.flatMap (fun p => reFindAll p full_text ++ reFindAll p full_text_clean)

/-- Python `max(..., key=len)` fold: the first element of maximal length wins. -/
def maxByLenAux : List Char → List (List Char) → List Char
  | cur, [] => cur
  | cur, x :: xs => if cur.length < x.length then maxByLenAux x xs else maxByLenAux cur xs

/-- `max(all_matches, key=len)` on a possibly empty candidate list. -/
def maxByLen : List (List Char) → Option (List Char)
  | [] => none
  | x :: xs => some (maxByLenAux x xs)

/-- Lines 491-494: the extracted time slot is the longest collected match. -/
def extractTimeSlot (full_text : List Char) : Option (List Char) :=
  maxByLen (collectAllMatches full_text)

/-!  ### `_clean_title_description`  (scrape_apple_music_schedule.py lines 402-461) -/

/-- `\d{1,2}(?::\d{2})?\s*[–-]\s*\d{1,2}(?::\d{2})?\s*(?:AM|PM)` (re.I). -/
def timePatCore : MP Unit :=
  mpCat [mpU mpDigits12, mpU mpOptColonMM, mpSpaces, mpDash, mpSpaces,
         mpU mpDigits12, mpU mpOptColonMM, mpSpaces, mpU mpAmPm]

/-- Line 420's anchored pattern:
`^(?:LIVE\s*[·•]?\s*)?(\d{1,2}(?::\d{2})?\s*(?:AM|PM)?\s*[–-]\s*\d{1,2}(?::\d{2})?\s*(?:AM|PM))\s*`. -/
def cleanPat3M : MP Unit :=
  mpCat [mpOpt liveLeadM (), mpU mpDigits12, mpU mpOptColonMM, mpSpaces, optAmPmU,
         mpSpaces, mpDash, mpSpaces, mpU mpDigits12, mpU mpOptColonMM, mpSpaces,
         mpU mpAmPm, mpSpaces]

/-- Line 423's anchored pattern: `^(timePatCore)\s*`. -/
def cleanPat4M : MP Unit := mpCat [timePatCore, mpSpaces]

/-- Line 426's global pattern `LIVE\s*[·•]\s*(timePatCore)\s*` (re.I), deleted. -/
def liveMidM : MP (List Char) :=
  mpMap (fun _ => ([] : List Char))
    (mpCat [mpLitCI (str "LIVE"), mpSpaces, glyphM, mpSpaces, timePatCore, mpSpaces])

/-- Case-insensitive literal for a backreference under `re.I`. -/
def mpLitCIof (lit : List Char) : MP Unit := fun s =>
  if (s.take lit.length).map toUpperCh == lit.map toUpperCh then
    [((), s.drop lit.length)]
  else []

/-- Line 430's global pattern `(timePatCore)\s*\1\s*` replaced by `\1 `:
collapse an immediately repeated time range. -/
def repTimeM : MP (List Char) :=
  mpBind (mpCapStr timePatCore) (fun g =>
    mpBind mpSpaces (fun _ =>
      mpBind (mpLitCIof g) (fun _ =>
        mpMap (fun _ => g ++ [' ']) mpSpaces)))

/-- `.*$` of line 433: everything to the end (a final newline excluded),
`none` when an interior newline blocks the match. -/
def dotStarEnd (s : List Char) : Option (List Char) :=
  if !(s.contains '\n') then some s
  else if !(s.dropLast.contains '\n') && s.getLast? == some '\n' then some s.dropLast
  else none

/-- Line 433's anchored pattern `^(timePatCore)([A-Za-z].*)$` (re.I),
returning group 2. -/
def cleanPat7M : MP (List Char) :=
  mpBind timePatCore (fun _ => fun s =>
    match s with
    | c :: r =>
      if isAlphaCh c then
        match dotStarEnd (c :: r) with
        | some g2 => [(g2, [])]
        | none => []
      else []
    | [] => [])

/-- Leftmost alternation over literal words (in the written order). -/
def wordAltM (ws : List (List Char)) : MP (List Char) := fun s =>
  ws.foldr (fun w acc => (if w.isPrefixOf s then [(w, s.drop w.length)] else []) ++ acc) []

/-- Line 439's global pattern `(Show|List|Hits|Radio|Music)([A-Z][a-z])`
replaced by `\1 \2`. -/
def showConcatM : MP (List Char) :=
  mpBind (wordAltM [str "Show", str "List", str "Hits", str "Radio", str "Music"]) (fun w =>
    fun s =>
      match s with
      | c1 :: c2 :: r =>
        if isUpperAlphaCh c1 && isLowerAlphaCh c2 then [(w ++ ' ' :: c1 :: [c2], r)] else []
      | _ => [])

/-- Line 442's global pattern `([a-z])([A-Z][a-z])` replaced by `\1 \2`. -/
def camelSplitM : MP (List Char) := fun s =>
  match s with
  | a :: b :: c :: r =>
    if isLowerAlphaCh a && isUpperAlphaCh b && isLowerAlphaCh c then
      [(a :: ' ' :: b :: [c], r)]
    else []
  | _ => []

/-- Lines 445-459: strip a leading (possibly doubled) occurrence of the title
from a description, and split a title glued to a capitalized description. -/
def descTitleStrip (cleaned t : List Char) : List Char :=
  let d1 :=
    if (lowerS t).isPrefixOf (lowerS cleaned) then trimCh (cleaned.drop t.length) else cleaned
  let tt := t ++ t
  if (lowerS tt).isPrefixOf (lowerS d1) then trimCh (d1.drop tt.length)
  else if t.length > 3 then
    if t.isPrefixOf d1 then
      match d1.drop t.length with
      | c :: r =>
        if isUpperAlphaCh c then c :: r.takeWhile (fun x => !(x == '\n')) else d1
      | [] => d1
    else d1
  else d1

/-- `_clean_title_description`. -/
def cleanTitleDescription (text : List Char) (time_slot : Option (List Char))
    (is_description : Bool) (title : Option (List Char)) : List Char :=
  if text.isEmpty then text
  else
    let c1 := reSubAnchoredDel liveLeadM text
    let c2 :=
      match time_slot with
      | some ts => if ts.isEmpty then c1 else reSubAnchoredDel (mpCat [mpLit ts, mpSpaces]) c1
      | none => c1
    let c3 := reSubAnchoredDel cleanPat3M c2
    let c4 := reSubAnchoredDel cleanPat4M c3
    let c5 := reSubAll liveMidM c4
    let c6 := reSubAll repTimeM c5
    let c7 :=
      match reMatch cleanPat7M c6 with
      | some g2 => trimCh g2
      | none => c6
    let c8 := reSubAll showConcatM c7
    let c9 := reSubAll camelSplitM c8
    let c10 :=
      if is_description then
        match title with
        | some t => if t.isEmpty then c9 else descTitleStrip c9 t
        | none => c9
      else c9
    trimCh c10

/-!  ### Title/description segmentation  (scrape_apple_music_schedule.py lines 496-615),
restricted to the text path: the element-based candidate lists of lines
506-530 are empty when the block carries no structural hints. -/

/-- `str.split()` on whitespace, empty words dropped. -/
def splitWsAux : List Char → List Char → List (List Char)
  | [], acc => if acc.isEmpty then [] else [acc.reverse]
  | c :: r, acc =>
    if isSpaceCh c then
      if acc.isEmpty then splitWsAux r [] else acc.reverse :: splitWsAux r []
    else splitWsAux r (c :: acc)

/-- `str.split()`. -/
def splitWs (s : List Char) : List (List Char) := splitWsAux s []

/-- `' '.join(words)`. -/
def joinWs : List (List Char) → List Char
  | [] => []
  | [w] => w
  | w :: ws => w ++ ' ' :: joinWs ws

/-- Python truthiness of an optional string. -/
def pyTruthy (o : Option (List Char)) : Bool :=
  match o with
  | none => false
  | some s => !s.isEmpty

/-- The known description-opening phrases of line 567. -/
def descStarters : List (List Char) :=
  [str "your favorite", str "daily dispatches", str "from the"]

/-- The boundary-scanning loop of lines 543-571 over the word list, from
index `i`: the word "Show" ends the title inclusively; otherwise a strong
boundary signal ends it before the next word unless "Show" appears within the
next three tokens. -/
def titleScanAux (words : List (List Char)) : Nat → Nat → Option (List Char × Nat)
  | 0, _ => none
  | fuel + 1, i =>
    if i < words.length then
      let wi := words.getD i []
      if lowerS wi == str "show" then some (joinWs (words.take (i + 1)), i + 1)
      else
        if i < words.length - 1 then
          let next_word := words.getD (i + 1) []
          let next_words := lowerS (joinWs (words.drop (i + 1)))
          let upcoming :=
            if i + 3 < words.length then (words.drop (i + 1)).take 3 else words.drop (i + 1)
          let has_show_coming := upcoming.any (fun w => lowerS w == str "show")
          let strong :=
            (lowerS wi == str "list" || lowerS wi == str "hits" ||
             lowerS wi == str "radio" || lowerS wi == str "music")
            || (match next_word with
                | c :: _ => isLowerAlphaCh c
                | [] => false)
            || descStarters.any (fun d => d.isPrefixOf next_words)
          if !has_show_coming && strong then some (joinWs (words.take (i + 1)), i + 1)
          else titleScanAux words fuel (i + 1)
        else titleScanAux words fuel (i + 1)
    else none

/-- The boundary scan started at word index 1. -/
def titleScan (words : List (List Char)) : Option (List Char × Nat) :=
  titleScanAux words words.length 1

/-- The inner loop of lines 578-582. -/
def titleHeurLoop (words : List (List Char)) : Nat → Nat → Option (List Char × Nat)
  | 0, _ => none
  | fuel + 1, i =>
    if i < min 4 words.length then
      let prev := words.getD (i - 1) []
      let cur := words.getD i []
      if (lowerS prev == str "show" || lowerS prev == str "list" || lowerS prev == str "radio")
          || (match cur with
              | c :: _ => isLowerAlphaCh c
              | [] => false)
      then some (joinWs (words.take i), i)
      else titleHeurLoop words fuel (i + 1)
    else none

/-- The proper-noun heuristic of lines 574-585, used when the scan found no
boundary; `none` when its guard fails (the title stays unset). -/
def titleHeur (words : List (List Char)) : Option (List Char × Nat) :=
  let upperAt : List Char → Bool := fun w =>
    match w with
    | c :: _ => isUpperAlphaCh c
    | [] => false
  if words.length ≥ 2 &&
      (upperAt (words.getD 0 []) && (words.length == 1 || upperAt (words.getD 1 []))) then
    match titleHeurLoop words 4 1 with
    | some r => some r
    | none =>
      if words.length ≥ 2 then some (joinWs (words.take 2), 2)
      else some (joinWs (words.take 1), 1)
  else none

/-- The word-extension loop of lines 598-602. -/
def titleFallbackExtend (words : List (List Char)) : Nat → Nat → List Char → List Char
  | 0, _, acc => acc
  | fuel + 1, i, acc =>
    if i < min words.length 4 then
      let cur := words.getD i []
      let prev := words.getD (i - 1) []
      if (match cur with
          | c :: _ => isUpperAlphaCh c
          | [] => false)
          || (lowerS prev == str "the" || lowerS prev == str "a" || lowerS prev == str "an")
      then titleFallbackExtend words fuel (i + 1) (acc ++ ' ' :: cur)
      else acc
    else acc

/-- The additional fallback of lines 592-602: first word plus title-like
extensions. -/
def titleFallback (clean_text : List Char) : Option (List Char) :=
  match splitWs clean_text with
  | [] => none
  | w :: ws => some (titleFallbackExtend (w :: ws) 4 1 w)

/-- The fields of `extract_show_data`'s result that the text path produces. -/
structure ExtractedShow where
  time_slot : Option (List Char)
  title : Option (List Char)
  description : Option (List Char)
deriving DecidableEq

/-- `extract_show_data` restricted to its text path (structural hints absent,
so the element-derived title/description candidate lists are empty). -/
def extractShowDataText (full_text : List Char) : Option ExtractedShow :=
  let time_slot := extractTimeSlot full_text
  let title0 : Option (List Char) := none
  let description0 : Option (List Char) := none
  let clean_text := cleanTitleDescription full_text time_slot false none
  let scanned : Option (List Char) × Option Nat :=
    if !pyTruthy title0 && !clean_text.isEmpty then
      let words := splitWs clean_text
      match titleScan words with
      | some (t, idx) => (some t, some idx)
      | none =>
        match titleHeur words with
        | some (t, idx) => (some t, some idx)
        | none => (title0, none)
    else (title0, none)
  let title1 := if !pyTruthy title0 && !clean_text.isEmpty then scanned.1 else title0
  let description1 :=
    match scanned.2 with
    | some idx =>
      if !pyTruthy description0 && idx < (splitWs clean_text).length then
        some (joinWs ((splitWs clean_text).drop idx))
      else description0
    | none => description0
  let title2 :=
    if !pyTruthy title1 && !clean_text.isEmpty then
      match titleFallback clean_text with
      | some t => some t
      | none => title1
    else title1
  let description2 :=
    if pyTruthy description1 && pyTruthy title2 then
      some (cleanTitleDescription (description1.getD []) time_slot true title2)
    else description1
  let description3 :=
    if !pyTruthy description2 && !clean_text.isEmpty && pyTruthy title2 then
      let t := title2.getD []
      let remaining :=
        if containsSub t clean_text then trimCh (removeOnce t clean_text) else clean_text
      if !remaining.isEmpty && remaining.length > 5 then some remaining else description2
    else description2
  if pyTruthy time_slot || pyTruthy title2 || pyTruthy description3 then
    some { time_slot :=
             match time_slot with
             | some ts => if ts.isEmpty then some ts else some (convert12to24 ts)
             | none => none,
           title := title2,
           description := description3 }
  else none

/-!  ### `verify_station_coverage`  (verify_coverage.py lines 38-138) -/

/-- One input row of the verifier (the columns it reads). -/
structure CovRow where
  show_title : List Char
  time_slot_utc : List Char
deriving DecidableEq

/-- One parsed show with minutes since midnight (end already wrapped). -/
structure ShowTime where
  title : List Char
  time_slot : List Char
  startM : Int
  endM : Int
  duration : Int
deriving DecidableEq

/-- Verifier search pattern `(\d{1,2}:\d{2})\s*[–-]\s*(\d{1,2}:\d{2})`. -/
def vSearch24M : MP (List Char × List Char) :=
  mpBind (mpCapStr hhmmU) (fun g1 =>
    mpBind sepM (fun _ =>
      mpMap (fun g2 => (g1, g2)) (mpCapStr hhmmU)))

/-- `\d{1,2}(?::\d{2})?\s*(?:AM|PM)?` (a side with an optional period). -/
def side12OptM : MP Unit := mpCat [mpU mpDigits12, mpU mpOptColonMM, mpSpaces, optAmPmU]

/-- The 12-hour fallback search pattern
`(\d{1,2}(?::\d{2})?\s*(?:AM|PM)?)\s*[–-]\s*(\d{1,2}(?::\d{2})?\s*(?:AM|PM))`
shared by the verifier and by `_detect_time_gaps`. -/
def gap12M : MP (List Char × List Char) :=
  mpBind (mpCapStr side12OptM) (fun g1 =>
    mpBind sepM (fun _ =>
      mpMap (fun g2 => (g1, g2)) (mpCapStr sideWithPM)))

/-- The "missing AM/PM on the end" fix-up shared by both gap passes. -/
def fixEndStr (start_str end_str : List Char) : List Char :=
  if !(containsSub (str "AM") (upperS end_str)) && !(containsSub (str "PM") (upperS end_str)) then
    if containsSub (str "AM") (upperS start_str) then end_str ++ (str "AM")
    else if containsSub (str "PM") (upperS start_str) then end_str ++ (str "PM")
    else end_str
  else end_str

/-- Minutes/wraparound computation of verify_coverage.py lines 64-84. -/
def mkShowTime (r : CovRow) (start_str end_str0 : List Char) : ShowTime :=
  let end_str := fixEndStr start_str end_str0
  let s := parseTimeToMinutesVerify start_str
  let e0 := parseTimeToMinutesVerify end_str
  let e := if e0 < s then e0 + 1440 else e0
  { title := r.show_title, time_slot := r.time_slot_utc,
    startM := s, endM := e, duration := e - s }

/-- Lines 50-84: parse one row, `none` when it is skipped. -/
def verifyParseRow (r : CovRow) : Option ShowTime :=
  if r.time_slot_utc.isEmpty || containsSub (str "MISSING") r.show_title then none
  else
    match reSearch vSearch24M r.time_slot_utc with
    | some (g1, g2) => some (mkShowTime r (trimCh g1) (trimCh g2))
    | none =>
      match reSearch gap12M r.time_slot_utc with
      | some (g1, g2) => some (mkShowTime r (trimCh g1) (trimCh g2))
      | none => none

/-- The station's parsed show list (line 43's MISSING pre-filter included). -/
def verifyShowTimes (rows : List CovRow) : List ShowTime :=
  (rows.filter (fun r => !containsSub (str "MISSING") r.show_title)).filterMap verifyParseRow

/-- Order on parsed shows: ascending start minute (the sort key of line 87). -/
def stLe (a b : ShowTime) : Prop := a.startM ≤ b.startM

instance : DecidableRel stLe := fun a b => inferInstanceAs (Decidable (a.startM ≤ b.startM))

instance : IsTotal ShowTime stLe := ⟨fun a b => Int.le_total a.startM b.startM⟩

instance : IsTrans ShowTime stLe := ⟨fun _ _ _ hab hbc => le_trans hab hbc⟩

/-- Line 87: sort ascending by start minute.  Python's `list.sort` is a stable
sort by this key; `insertionSort` with the same key order is stable in the same
sense and yields the identical list. -/
def sortedShowTimes (rows : List CovRow) : List ShowTime :=
  List.insertionSort stLe (verifyShowTimes rows)

/-- Line 94's accumulation: total covered minutes. -/
def totalCoverage (rows : List CovRow) : Int :=
  (sortedShowTimes rows).foldl (fun acc st => acc + st.duration) 0

/-- One reported gap (lines 107-112). -/
structure GapRec where
  gap_minutes : Int
  after_show : List Char
  before_show : List Char
  gap_time : List Char
deriving DecidableEq

/-- The gap record built for an adjacent pair (lines 99-112). -/
def mkGapRec (a b : ShowTime) : GapRec :=
  { gap_minutes := b.startM - a.endM,
    after_show := a.title,
    before_show := b.title,
    gap_time := fmt02i (a.endM.ediv 60) ++ ':' :: fmt02i (a.endM.emod 60)
      ++ (str " - ") ++ fmt02i (b.startM.ediv 60) ++ ':' :: fmt02i (b.startM.emod 60) }

/-- The gap-reporting loop of lines 93-112 over the sorted list. -/
def gapsLoop : List ShowTime → List GapRec
  | a :: b :: rest =>
    (if b.startM - a.endM > 5 then [mkGapRec a b] else []) ++ gapsLoop (b :: rest)
  | _ => []

/-- The verifier's reported gap list. -/
def verifyGaps (rows : List CovRow) : List GapRec :=
  gapsLoop (sortedShowTimes rows)

/-- Line 138: `return total_coverage >= 1430`. -/
def verifyPasses (rows : List CovRow) : Bool :=
  decide (totalCoverage rows ≥ 1430)

/-!  ### `_detect_time_gaps`  (scrape_apple_music_schedule.py lines 800-886) -/

/-- One show row as consumed by `_detect_time_gaps` (`dict.get` defaults make
every absent field the empty string). -/
structure CsvShow where
  station : List Char
  time_slot : List Char
  title : List Char
  description : List Char
  artwork_url : List Char
  show_url : List Char
  station_url : List Char
deriving DecidableEq

/-- A show with its parsed start/end minutes (lines 833-838). -/
structure TimedShow where
  entry : CsvShow
  startM : Int
  endM : Int
  time_slot : List Char
deriving DecidableEq

/-- Lines 806-838: parse one show's time slot, `none` when it is skipped. -/
def detectParse (s : CsvShow) : Option TimedShow :=
  if s.time_slot.isEmpty then none
  else
    match reSearch gap12M s.time_slot with
    | none => none
    | some (g1, g2) =>
      let end_str := fixEndStr g1 g2
      let sm := parseTimeToMinutes g1
      let em0 := parseTimeToMinutes end_str
      let em := if em0 < sm then em0 + 1440 else em0
      some { entry := s, startM := sm, endM := em, time_slot := s.time_slot }

/-- The sentinel title of synthesized placeholder entries (line 877). -/
def missingTitle : List Char := str "*** MISSING SHOW ***"

/-- The placeholder entry synthesized for a gap (lines 855-882). -/
def gapPlaceholder (a b : TimedShow) : CsvShow :=
  let gsh := (a.endM.ediv 60).emod 24
  let gsm := a.endM.emod 60
  let geh := (b.startM.ediv 60).emod 24
  let gem := b.startM.emod 60
  let gss := fmt02i gsh ++ ':' :: fmt02i gsm
  let ges := fmt02i geh ++ ':' :: fmt02i gem
  { station := a.entry.station,
    time_slot := gss ++ (str " – ") ++ ges,
    title := missingTitle,
    description := (str "Gap detected in schedule from ") ++ gss ++ (str " to ") ++ ges,
    artwork_url := [],
    show_url := [],
    station_url := a.entry.station_url }

/-- The parsed shows in input order. -/
def timedShows (shows : List CsvShow) : List TimedShow :=
  shows.filterMap detectParse

/-- Order on timed shows: ascending start minute (the sort key of line 841). -/
def tsLe (a b : TimedShow) : Prop := a.startM ≤ b.startM

instance : DecidableRel tsLe := fun a b => inferInstanceAs (Decidable (a.startM ≤ b.startM))

instance : IsTotal TimedShow tsLe := ⟨fun a b => Int.le_total a.startM b.startM⟩

instance : IsTrans TimedShow tsLe := ⟨fun _ _ _ hab hbc => le_trans hab hbc⟩

/-- Line 841: sort by start time.  Python's `list.sort` is a stable sort by
this key; `insertionSort` with the same key order yields the identical list. -/
def sortedTimedShows (shows : List CsvShow) : List TimedShow :=
  List.insertionSort tsLe (timedShows shows)

/-- The result-building loop of lines 844-886: emit each show, inserting a
placeholder after it when the next show starts more than 5 minutes later. -/
def detectLoop : List TimedShow → List CsvShow
  | [] => []
  | [a] => [a.entry]
  | a :: b :: rest =>
    a.entry :: (if b.startM - a.endM > 5 then [gapPlaceholder a b] else []) ++ detectLoop (b :: rest)

/-- `_detect_time_gaps`. -/
def detectTimeGaps (shows : List CsvShow) : List CsvShow :=
  if shows.isEmpty then shows else detectLoop (sortedTimedShows shows)

/-!  ### Rendering helpers and concrete inputs used by the claim theorems -/

/-- Render an AM/PM marker. -/
def renderPeriod : Period → List Char
  | Period.am => str "AM"
  | Period.pm => str "PM"

/-- Does the stripped string start with a digit?  (When it does not, both of
the component parser's patterns fail at position 0.) -/
def hasLeadingDigit (s : List Char) : Bool :=
  match trimCh s with
  | c :: _ => isDigitCh c
  | [] => false

/-- The C7 parse-back property at one hour value: the forms without a minute
group ("H", "HAM", "HPM"). -/
def c7bodyH (h : Nat) : Prop :=
  parseTimeComponent (natDigits h) = some (h, 0, none)
  ∧ parseTimeComponent (natDigits h ++ renderPeriod Period.am) = some (h, 0, some Period.am)
  ∧ parseTimeComponent (natDigits h ++ renderPeriod Period.pm) = some (h, 0, some Period.pm)

instance (h : Nat) : Decidable (c7bodyH h) := by
  unfold c7bodyH
  infer_instance

/-- The C7 parse-back property at one hour/minute pair: the forms with a
minute group ("H:MM", "H:MM AM", "H:MM PM"). -/
def c7bodyHM (h m : Nat) : Prop :=
  parseTimeComponent (natDigits h ++ ':' :: fmt02 m) = some (h, m, none)
  ∧ parseTimeComponent (natDigits h ++ ':' :: fmt02 m ++ ' ' :: renderPeriod Period.am)
      = some (h, m, some Period.am)
  ∧ parseTimeComponent (natDigits h ++ ':' :: fmt02 m ++ ' ' :: renderPeriod Period.pm)
      = some (h, m, some Period.pm)

instance (h m : Nat) : Decidable (c7bodyHM h m) := by
  unfold c7bodyHM
  infer_instance

/-- The C2 inference property at one hour pair: the missing side receives the
same period when its own hour is 12 or when the end hour is ≥ the start hour,
and the flipped period otherwise; stated for both periods and both directions
of the single missing side. -/
def c2body (sh eh : Nat) : Prop :=
  (inferPeriods sh eh (some Period.am) none
    = (some Period.am, some (if eh = 12 then Period.am else if sh ≤ eh then Period.am else Period.pm)))
  ∧ (inferPeriods sh eh (some Period.pm) none
    = (some Period.pm, some (if eh = 12 then Period.pm else if sh ≤ eh then Period.pm else Period.am)))
  ∧ (inferPeriods sh eh none (some Period.am)
    = (some (if sh = 12 then Period.am else if sh ≤ eh then Period.am else Period.pm), some Period.am))
  ∧ (inferPeriods sh eh none (some Period.pm)
    = (some (if sh = 12 then Period.pm else if sh ≤ eh then Period.pm else Period.am), some Period.pm))

instance (sh eh : Nat) : Decidable (c2body sh eh) := by
  unfold c2body
  infer_instance

/-- Four shows exactly tiling 00:00-24:00 (the §8 coverage scenario). -/
def tile4Rows : List CovRow :=
  [⟨str "A", str "00:00 – 06:00"⟩, ⟨str "B", str "06:00 – 12:00"⟩,
   ⟨str "C", str "12:00 – 18:00"⟩, ⟨str "D", str "18:00 – 00:00"⟩]

/-- The same schedule with a 30-minute slice (11:30-12:00) removed. -/
def cut30Rows : List CovRow :=
  [⟨str "A", str "00:00 – 06:00"⟩, ⟨str "B", str "06:00 – 11:30"⟩,
   ⟨str "C", str "12:00 – 18:00"⟩, ⟨str "D", str "18:00 – 00:00"⟩]

/-- A schedule covering 1432 of 1440 minutes (more than 5 but at most 10
minutes short). -/
def rows1432 : List CovRow :=
  [⟨str "A", str "00:00 – 12:00"⟩, ⟨str "B", str "12:00 – 23:52"⟩]

/-- A raw block in which a short range appears before a longer, more complete
one. -/
def c3text : List Char := str "7 – 9 PM blah 7:05 PM – 9:00 PM"

/-- A small station schedule with one 60-minute hole and one unparseable row. -/
def demoShows : List CsvShow :=
  [{ station := str "S", time_slot := str "9 – 10 PM", title := str "A",
     description := [], artwork_url := [], show_url := [], station_url := str "SU" },
   { station := str "S", time_slot := str "11PM – 12AM", title := str "B",
     description := [], artwork_url := [], show_url := [], station_url := str "SU" },
   { station := str "S", time_slot := str "junk", title := str "C",
     description := [], artwork_url := [], show_url := [], station_url := str "SU" }]

/-- The gap record the verifier reports for `cut30Rows`. -/
def gap30 : GapRec :=
  { gap_minutes := 30, after_show := str "B", before_show := str "C",
    gap_time := str "11:30 - 12:00" }

/-!  ### Helper lemmas -/

/-- Turn an exhaustive boolean check over `List.range n` into a bounded
universal statement. -/
theorem ballOfAllRangeB {f : Nat → Bool} {n : Nat}
    (h : (List.range n).all f = true) : ∀ i, i < n → f i = true :=
  fun i hi => List.all_eq_true.mp h i (List.mem_range.mpr hi)

/-- Exhaustive check of the minute-free C7 forms for hours 0-12. -/
theorem c7checkH : (List.range 13).all (fun h => decide (c7bodyH h)) = true := by rfl

/-- Exhaustive check of the minute-carrying C7 forms for hours 0-12 and
minutes 0-59. -/
theorem c7checkHM :
    (List.range 13).all (fun h =>
      (List.range 60).all (fun m => decide (c7bodyHM h m))) = true := by rfl

/-- Exhaustive check of the C2 inference rule for hour pairs in 0-12. -/
theorem c2check :
    (List.range 13).all (fun sh =>
      (List.range 13).all (fun eh => decide (c2body sh eh))) = true := by rfl

/-- `maxByLenAux` returns the start value or a list element, never shorter
than any of them. -/
theorem maxByLenAux_spec (l : List (List Char)) :
    ∀ cur, (maxByLenAux cur l = cur ∨ maxByLenAux cur l ∈ l)
      ∧ cur.length ≤ (maxByLenAux cur l).length
      ∧ ∀ y ∈ l, y.length ≤ (maxByLenAux cur l).length := by
  induction l with
  | nil =>
    intro cur
    simp [maxByLenAux]
  | cons x xs ih =>
    intro cur
    by_cases hc : cur.length < x.length
    · have hx := ih x
      refine ⟨?_, ?_, ?_⟩
      · simp only [maxByLenAux, if_pos hc]
        rcases hx.1 with h | h
        · exact Or.inr (by simp [h])
        · exact Or.inr (List.mem_cons_of_mem x h)
      · simp only [maxByLenAux, if_pos hc]
        exact le_of_lt (lt_of_lt_of_le hc hx.2.1)
      · intro y hy
        simp only [maxByLenAux, if_pos hc]
        rcases List.mem_cons.mp hy with rfl | hy
        · exact hx.2.1
        · exact hx.2.2 y hy
    · have hx := ih cur
      refine ⟨?_, ?_, ?_⟩
      · simp only [maxByLenAux, if_neg hc]
        rcases hx.1 with h | h
        · exact Or.inl h
        · exact Or.inr (List.mem_cons_of_mem x h)
      · simp only [maxByLenAux, if_neg hc]
        exact hx.2.1
      · intro y hy
        simp only [maxByLenAux, if_neg hc]
        rcases List.mem_cons.mp hy with rfl | hy
        · exact le_trans (Nat.le_of_not_lt hc) hx.2.1
        · exact hx.2.2 y hy

/-- `maxByLen` (Python's `max(..., key=len)`) returns a member of maximal
length. -/
theorem maxByLen_spec {l : List (List Char)} {m : List Char}
    (h : maxByLen l = some m) : m ∈ l ∧ ∀ y ∈ l, y.length ≤ m.length := by
  cases l with
  | nil => simp [maxByLen] at h
  | cons x xs =>
    have hx := maxByLenAux_spec xs x
    have hm : m = maxByLenAux x xs := by
      simpa [maxByLen] using h.symm
    subst hm
    refine ⟨?_, ?_⟩
    · rcases hx.1 with h1 | h1
      · simp [h1]
      · exact List.mem_cons_of_mem x h1
    · intro y hy
      rcases List.mem_cons.mp hy with rfl | hy
      · exact hx.2.1
      · exact hx.2.2 y hy

/-- Folding the duration accumulator equals adding the mapped sum. -/
theorem foldl_duration_eq (l : List ShowTime) :
    ∀ acc : Int, l.foldl (fun a st => a + st.duration) acc
      = acc + (l.map (fun st => st.duration)).sum := by
  induction l with
  | nil => intro acc; simp
  | cons x xs ih =>
    intro acc
    simp only [List.foldl_cons, List.map_cons, List.sum_cons, ih]
    ring

/-- The gap loop reports exactly the adjacent pairs more than 5 minutes
apart, in order. -/
theorem gapsLoop_eq (l : List ShowTime) :
    gapsLoop l = ((l.zip l.tail).filter
        (fun q => decide (q.2.startM - q.1.endM > 5))).map (fun q => mkGapRec q.1 q.2) := by
  induction l with
  | nil => rfl
  | cons a t ih =>
    cases t with
    | nil => rfl
    | cons b r =>
      have hz : (a :: b :: r).zip (a :: b :: r).tail
          = (a, b) :: ((b :: r).zip (b :: r).tail) := by
        simp [List.zip_cons_cons]
      rw [hz]
      by_cases hgap : b.startM - a.endM > 5
      · simp only [gapsLoop, if_pos hgap, List.filter_cons, decide_eq_true hgap,
          List.map_cons, List.singleton_append]
        exact congrArg _ ih
      · simp only [gapsLoop, if_neg hgap, List.filter_cons,
          decide_eq_false hgap, List.nil_append]
        exact ih

/-- A parsed entry of `_detect_time_gaps` wraps the original show. -/
theorem detectParse_entry {s : CsvShow} {t : TimedShow}
    (h : detectParse s = some t) : t.entry = s := by
  unfold detectParse at h
  by_cases he : s.time_slot.isEmpty
  · simp [he] at h
  · rcases hr : reSearch gap12M s.time_slot with _ | ⟨g1, g2⟩
    · simp [he, hr] at h
    · simp only [he, Bool.false_eq_true, if_false, hr] at h
      cases h
      rfl

/-- Membership in `timedShows`. -/
theorem mem_timedShows {shows : List CsvShow} {t : TimedShow} :
    t ∈ timedShows shows ↔ ∃ s ∈ shows, detectParse s = some t := by
  simp [timedShows]

/-- Every element of the detect loop's output is a wrapped input show or a
sentinel-titled placeholder. -/
theorem mem_detectLoop : ∀ (l : List TimedShow) (x : CsvShow), x ∈ detectLoop l →
    (∃ t ∈ l, x = t.entry) ∨ x.title = missingTitle := by
  intro l
  induction l with
  | nil => intro x hx; simp [detectLoop] at hx
  | cons a t ih =>
    intro x hx
    cases t with
    | nil =>
      simp only [detectLoop, List.mem_singleton] at hx
      exact Or.inl ⟨a, by simp, hx⟩
    | cons b r =>
      by_cases hgap : b.startM - a.endM > 5
      · simp only [detectLoop, if_pos hgap] at hx
        simp only [List.singleton_append, List.cons_append, List.mem_cons] at hx
        rcases hx with rfl | rfl | hx
        · exact Or.inl ⟨a, by simp, rfl⟩
        · exact Or.inr rfl
        · rcases ih x hx with ⟨u, hu, hxu⟩ | hm
          · exact Or.inl ⟨u, List.mem_cons_of_mem a hu, hxu⟩
          · exact Or.inr hm
      · simp only [detectLoop, if_neg hgap] at hx
        simp only [List.singleton_append, List.mem_cons] at hx
        rcases hx with rfl | hx
        · exact Or.inl ⟨a, by simp, rfl⟩
        · rcases ih x hx with ⟨u, hu, hxu⟩ | hm
          · exact Or.inl ⟨u, List.mem_cons_of_mem a hu, hxu⟩
          · exact Or.inr hm

/-- When no input show carries the sentinel title, filtering the sentinel
rows out of the loop's output recovers exactly the wrapped input sequence. -/
theorem detectLoop_filter : ∀ l : List TimedShow,
    (∀ t ∈ l, ¬ t.entry.title = missingTitle) →
    (detectLoop l).filter (fun x => !(x.title == missingTitle))
      = l.map (fun t => t.entry) := by
  intro l
  induction l with
  | nil => intro _; rfl
  | cons a t ih =>
    intro hsent
    have ha : (!(a.entry.title == missingTitle)) = true := by
      have := hsent a (by simp)
      simpa using this
    cases t with
    | nil =>
      simp [detectLoop, List.filter_cons, ha]
    | cons b r =>
      have hrest := ih (fun u hu => hsent u (List.mem_cons_of_mem a hu))
      by_cases hgap : b.startM - a.endM > 5
      · have hp : (!((gapPlaceholder a b).title == missingTitle)) = false := by
          simp [gapPlaceholder]
        simp only [detectLoop, if_pos hgap, List.singleton_append, List.map_cons]
        simp [List.filter_cons, ha, hp, hrest]
      · simp only [detectLoop, if_neg hgap, List.nil_append, List.map_cons]
        simp [List.filter_cons, ha, hrest]

/-!  ### Claim theorems -/

/-- C1 (amended): the Coverage Verifier computes total coverage as the sum of
the per-show durations (summed over the sorted list, which equals the sum over
the parsed list; the verifier inserts no gap entries), and verification passes
exactly when total coverage ≥ 1440 − 10 = 1430 minutes.  Four shows exactly
tiling 00:00-24:00 report 1440 total minutes, pass, and report no gaps; the
same schedule with a 30-minute slice removed reports a single 30-minute gap
and fails. -/
theorem c1_coverage_threshold :
    (∀ rows : List CovRow,
      (verifyPasses rows = true ↔ totalCoverage rows ≥ 1430)
      ∧ totalCoverage rows = ((verifyShowTimes rows).map (fun st => st.duration)).sum)
    ∧ totalCoverage tile4Rows = 1440 ∧ verifyPasses tile4Rows = true
    ∧ verifyGaps tile4Rows = []
    ∧ totalCoverage cut30Rows = 1410 ∧ verifyPasses cut30Rows = false
    ∧ (verifyGaps cut30Rows).map (fun g => g.gap_minutes) = [30] := by
  refine ⟨fun rows => ⟨?_, ?_⟩, by decide, by decide, by decide, by decide, by decide, by decide⟩
  · exact decide_eq_true_iff
  · rw [totalCoverage, foldl_duration_eq]
    have hperm : (sortedShowTimes rows).Perm (verifyShowTimes rows) :=
      List.perm_insertionSort stLe _
    have hsum := (hperm.map (fun st => st.duration)).sum_eq
    simpa using hsum

/-- C1 counterexample: a schedule totalling 1432 minutes passes the verifier
(1432 ≥ 1430) although 1432 < 1435, so "verification passes exactly when total
coverage ≥ 1435" is false as stated. -/
theorem c1_counterexample :
    totalCoverage rows1432 = 1432
    ∧ verifyPasses rows1432 = true
    ∧ ¬ (verifyPasses rows1432 = true ↔ totalCoverage rows1432 ≥ 1435) := by decide

/-- C2: when exactly one side of a parsed 12-hour range carries an AM/PM
period, the resolver assigns the missing side the same period when that side's
hour is exactly 12 or when the end hour is ≥ the start hour, and the opposite
period otherwise; in particular "5 – 7 AM" resolves with start period AM
(giving 05:00 – 07:00) and "11 – 1 AM" with start period PM
(giving 23:00 – 01:00). -/
theorem c2_period_inference (sh eh : Nat) (p : Period)
    (hsh1 : 1 ≤ sh) (hsh2 : sh ≤ 12) (heh1 : 1 ≤ eh) (heh2 : eh ≤ 12) :
    (inferPeriods sh eh (some p) none
      = (some p, some (if eh = 12 then p else if sh ≤ eh then p else p.flip)))
    ∧ (inferPeriods sh eh none (some p)
      = (some (if sh = 12 then p else if sh ≤ eh then p else p.flip), some p))
    ∧ convert12to24 (str "5 – 7 AM") = str "05:00 – 07:00"
    ∧ convert12to24 (str "11 – 1 AM") = str "23:00 – 01:00" := by
  have hb : c2body sh eh :=
    of_decide_eq_true (ballOfAllRangeB (ballOfAllRangeB c2check sh (by omega)) eh (by omega))
  obtain ⟨h1, h2, h3, h4⟩ := hb
  refine ⟨?_, ?_, by decide, by decide⟩
  · cases p with
    | am => exact h1
    | pm => exact h2
  · cases p with
    | am => exact h3
    | pm => exact h4

/-- Witness for C2 at the claim's own boundary instance "11 – 1 AM". -/
theorem c2_period_inference_witness :
    (1 ≤ 11 ∧ 11 ≤ 12 ∧ 1 ≤ 1 ∧ 1 ≤ 12)
    ∧ inferPeriods 11 1 none (some Period.am)
      = (some (if (11 : Nat) = 12 then Period.am
          else if (11 : Nat) ≤ 1 then Period.am else Period.am.flip), some Period.am) :=
  ⟨by decide,
   (c2_period_inference 11 1 Period.am (by decide) (by decide) (by decide) (by decide)).2.1⟩

/-- C5: the converter's hour shift by the run's offset (7 during daylight
saving, 8 otherwise), followed by the inverse shift with the same wraparound
rule, reproduces both endpoints' hours exactly, and minutes are passed through
unaltered. -/
theorem c5_offset_roundtrip (d : Bool) (sh sm eh em : Nat)
    (hsh : sh < 24) (heh : eh < 24) :
    (pacOffset d = 7 ∨ pacOffset d = 8)
    ∧ convertRangePacific d sh sm eh em
        = (shiftHourPy sh (pacOffset d), sm, shiftHourPy eh (pacOffset d), em)
    ∧ inverseShiftHour (shiftHourPy sh (pacOffset d)) (pacOffset d) = sh
    ∧ inverseShiftHour (shiftHourPy eh (pacOffset d)) (pacOffset d) = eh := by
  have hoff : pacOffset d = 7 ∨ pacOffset d = 8 := by
    cases d
    · exact Or.inr rfl
    · exact Or.inl rfl
  refine ⟨hoff, rfl, ?_, ?_⟩
  · rcases hoff with h | h <;>
      rw [h] <;> simp only [shiftHourPy, inverseShiftHour] <;> split_ifs <;> omega
  · rcases hoff with h | h <;>
      rw [h] <;> simp only [shiftHourPy, inverseShiftHour] <;> split_ifs <;> omega

/-- Witness for C5 at 23:05 – 04:30 under daylight saving. -/
theorem c5_offset_roundtrip_witness :
    ((23 : Nat) < 24 ∧ (4 : Nat) < 24)
    ∧ inverseShiftHour (shiftHourPy 23 (pacOffset true)) (pacOffset true) = 23 :=
  ⟨by decide, (c5_offset_roundtrip true 23 5 4 30 (by decide) (by decide)).2.2.1⟩

/-- C6 (amended): on every non-empty input on which the 24-hour range pattern
fails and the 12-hour fallback cannot produce a parseable range either, the
timezone conversion returns its input unchanged; the 12-to-24-hour conversion
returns its input unchanged whenever no range pattern matches (the empty
string included).  On the empty input the timezone conversion instead
returns `none`. -/
theorem c6_unparsed_unchanged (d : Bool) (s : List Char)
    (hne : s ≠ [])
    (h24 : reMatch utc24M s = none)
    (hfb : hasAmPm s = false ∨ reMatch utc24M (convert12to24 s) = none) :
    convertUTCtoPacific d s = some s
    ∧ (∀ t : List Char, match12Any t = none → convert12to24 t = t) := by
  constructor
  · have hse : s.isEmpty = false := by
      cases s with
      | nil => exact absurd rfl hne
      | cons c r => rfl
    unfold convertUTCtoPacific
    simp only [hse, Bool.false_eq_true, if_false, h24]
    rcases hfb with hh | hh
    · simp [hh]
    · by_cases ha : hasAmPm s
      · simp [ha, hh]
      · simp [ha]
  · intro t ht
    unfold convert12to24
    by_cases hte : t.isEmpty
    · simp [hte]
    · simp [hte, ht]

/-- C6 counterexample: the empty string parses under no pattern, yet the
timezone conversion returns `None` rather than the input unchanged. -/
theorem c6_counterexample :
    reMatch utc24M ([] : List Char) = none
    ∧ hasAmPm ([] : List Char) = false
    ∧ convertUTCtoPacific true ([] : List Char) = none
    ∧ convertUTCtoPacific true ([] : List Char) ≠ some ([] : List Char) := by decide

/-- Witness for C6 on a non-empty unparseable input. -/
theorem c6_unparsed_unchanged_witness :
    ((str "hello") ≠ [] ∧ reMatch utc24M (str "hello") = none
      ∧ hasAmPm (str "hello") = false)
    ∧ convertUTCtoPacific false (str "hello") = some (str "hello") :=
  ⟨by decide,
   (c6_unparsed_unchanged false (str "hello") (by decide) (by decide)
      (Or.inl (by decide))).1⟩

/-- C3: the time-slot extractor evaluates every pattern against both the
original and the LIVE-stripped text (that is the definition of
`collectAllMatches`) and, whenever any match fires, selects a collected match
of maximal length; when nothing fires it selects nothing.  On a text where
both "7 – 9 PM" and "7:05 PM – 9:00 PM" fire, the longer one wins. -/
theorem c3_longest_match (text m : List Char)
    (h : extractTimeSlot text = some m) :
    m ∈ collectAllMatches text
    ∧ (∀ y ∈ collectAllMatches text, y.length ≤ m.length)
    ∧ (collectAllMatches text = [] → extractTimeSlot text = none)
    ∧ extractTimeSlot c3text = some (str "7:05 PM – 9:00 PM")
    ∧ (str "7 – 9 PM") ∈ collectAllMatches c3text := by
  have hs := maxByLen_spec (l := collectAllMatches text) (m := m) h
  refine ⟨hs.1, hs.2, ?_, by decide, by decide⟩
  intro he
  unfold extractTimeSlot
  rw [he]
  rfl

/-- Witness for C3 on the two-candidate text. -/
theorem c3_longest_match_witness :
    extractTimeSlot c3text = some (str "7:05 PM – 9:00 PM")
    ∧ (str "7:05 PM – 9:00 PM") ∈ collectAllMatches c3text :=
  ⟨by decide, (c3_longest_match c3text (str "7:05 PM – 9:00 PM") (by decide)).1⟩

/-- C4: after converting each parseable range to minutes (adding 1440 to a
wrapped end) and sorting ascending by start minute, the verifier reports a gap
for an adjacent pair exactly when the next start exceeds the current end by
more than 5 minutes — the reported list is precisely the filtered list of
adjacent pairs — the sorted list is ascending, and no reported gap is ever
≤ 5 minutes. -/
theorem c4_gap_rule (rows : List CovRow) :
    verifyGaps rows
      = (((sortedShowTimes rows).zip (sortedShowTimes rows).tail).filter
          (fun q => decide (q.2.startM - q.1.endM > 5))).map (fun q => mkGapRec q.1 q.2)
    ∧ List.Pairwise stLe (sortedShowTimes rows)
    ∧ (∀ g ∈ verifyGaps rows, g.gap_minutes > 5) := by
  refine ⟨gapsLoop_eq _, List.sorted_insertionSort stLe _, ?_⟩
  intro g hg
  rw [verifyGaps, gapsLoop_eq] at hg
  obtain ⟨q, hq, rfl⟩ := List.mem_map.mp hg
  have h5 : q.2.startM - q.1.endM > 5 := of_decide_eq_true (List.mem_filter.mp hq).2
  simpa [mkGapRec] using h5

/-- Witness for C4 on the schedule with the 11:30-12:00 hole. -/
theorem c4_gap_rule_witness :
    gap30 ∈ verifyGaps cut30Rows ∧ gap30.gap_minutes > 5 :=
  ⟨by decide, (c4_gap_rule cut30Rows).2.2 gap30 (by decide)⟩

/-- C7: on every rendered form "H", "H:MM", "HAM/PM", "H:MM AM/PM" with H in
1-12 and MM in 00-59, the component parser recovers exactly that hour and
minute (minute 0 when absent) and the correct period (unknown when absent);
on a string with no leading digits it returns the soft failure instead of
raising. -/
theorem c7_time_component (h m : Nat) (p : Period)
    (hh1 : 1 ≤ h) (hh2 : h ≤ 12) (hm : m ≤ 59) :
    parseTimeComponent (natDigits h) = some (h, 0, none)
    ∧ parseTimeComponent (natDigits h ++ ':' :: fmt02 m) = some (h, m, none)
    ∧ parseTimeComponent (natDigits h ++ renderPeriod p) = some (h, 0, some p)
    ∧ parseTimeComponent (natDigits h ++ ':' :: fmt02 m ++ ' ' :: renderPeriod p)
        = some (h, m, some p)
    ∧ (∀ s : List Char, hasLeadingDigit s = false → parseTimeComponent s = none) := by
  have hH : c7bodyH h := of_decide_eq_true (ballOfAllRangeB c7checkH h (by omega))
  have hHM : c7bodyHM h m :=
    of_decide_eq_true (ballOfAllRangeB (ballOfAllRangeB c7checkHM h (by omega)) m (by omega))
  obtain ⟨e1, e2, e3⟩ := hH
  obtain ⟨f1, f2, f3⟩ := hHM
  refine ⟨e1, f1, ?_, ?_, ?_⟩
  · cases p with
    | am => exact e2
    | pm => exact e3
  · cases p with
    | am => exact f2
    | pm => exact f3
  · intro s hs
    have hd : mpDigits12 (trimCh s) = [] := by
      cases htr : trimCh s with
      | nil => rfl
      | cons c cs =>
        have hc : isDigitCh c = false := by
          have hs2 := hs
          unfold hasLeadingDigit at hs2
          rw [htr] at hs2
          exact hs2
        cases cs with
        | nil => simp [mpDigits12, hc]
        | cons c2 cs2 => simp [mpDigits12, hc]
    simp [parseTimeComponent, reMatch, runM, tcAmPmM, tcNumM, mpBind, hd]

/-- Witness for C7 at "7:05 PM". -/
theorem c7_time_component_witness :
    (1 ≤ 7 ∧ 7 ≤ 12 ∧ 5 ≤ 59)
    ∧ parseTimeComponent (natDigits 7 ++ ':' :: fmt02 5 ++ ' ' :: renderPeriod Period.pm)
        = some (7, 5, some Period.pm) :=
  ⟨by decide,
   (c7_time_component 7 5 Period.pm (by decide) (by decide) (by decide)).2.2.2.1⟩

/-- C8: on the raw text "LIVE · 7:05 – 9:00 PM The Morning Show Your favorite
hits to start the day" with no structural hints, extraction yields the
time slot "7:05 – 9:00 PM" (canonicalized to its 24-hour form
"19:05 – 21:00"), the title "The Morning Show" (the word "Show" ending the
title), and the description "Your favorite hits to start the day". -/
theorem c8_morning_show_scenario :
    extractShowDataText
        (str "LIVE · 7:05 – 9:00 PM The Morning Show Your favorite hits to start the day")
      = some { time_slot := some (str "19:05 – 21:00"),
               title := some (str "The Morning Show"),
               description := some (str "Your favorite hits to start the day") }
    ∧ extractTimeSlot
        (str "LIVE · 7:05 – 9:00 PM The Morning Show Your favorite hits to start the day")
      = some (str "7:05 – 9:00 PM") := by decide

/-- C10 (implicit): the gap-detection pass keeps exactly the shows whose time
slot the range pattern parses, in ascending order of start minute (removing
sentinel-titled placeholders from the output recovers precisely the sorted
parsed input sequence); every element of the output is a parseable input show
or a sentinel placeholder, and a show whose slot is absent or unparseable is
omitted entirely. -/
theorem c10_gap_pass_structure (shows : List CsvShow)
    (hsent : ∀ s ∈ shows, ¬ s.title = missingTitle) :
    (detectTimeGaps shows).filter (fun x => !(x.title == missingTitle))
      = (sortedTimedShows shows).map (fun t => t.entry)
    ∧ List.Pairwise tsLe (sortedTimedShows shows)
    ∧ (∀ x ∈ detectTimeGaps shows,
        x.title = missingTitle ∨ (x ∈ shows ∧ (detectParse x).isSome))
    ∧ (∀ s ∈ shows, detectParse s = none → ¬ s ∈ detectTimeGaps shows) := by
  have key : ∀ t ∈ sortedTimedShows shows, t.entry ∈ shows ∧ detectParse t.entry = some t := by
    intro t ht
    have hmem : t ∈ timedShows shows :=
      ((List.perm_insertionSort tsLe (timedShows shows)).mem_iff).mp ht
    obtain ⟨s, hsmem, hps⟩ := mem_timedShows.mp hmem
    have he := detectParse_entry hps
    rw [he]
    exact ⟨hsmem, hps⟩
  have c3 : ∀ x ∈ detectTimeGaps shows,
      x.title = missingTitle ∨ (x ∈ shows ∧ (detectParse x).isSome) := by
    intro x hx
    unfold detectTimeGaps at hx
    by_cases hemp : shows.isEmpty
    · rw [if_pos hemp] at hx
      rw [List.isEmpty_iff.mp hemp] at hx
      simp at hx
    · rw [if_neg hemp] at hx
      rcases mem_detectLoop _ x hx with ⟨t, ht, rfl⟩ | hm
      · obtain ⟨hmem, hps⟩ := key t ht
        exact Or.inr ⟨hmem, by rw [hps]; rfl⟩
      · exact Or.inl hm
  refine ⟨?_, List.sorted_insertionSort tsLe _, c3, ?_⟩
  · unfold detectTimeGaps
    by_cases hemp : shows.isEmpty
    · rw [if_pos hemp, List.isEmpty_iff.mp hemp]
      have : timedShows ([] : List CsvShow) = [] := rfl
      simp [sortedTimedShows, this]
    · rw [if_neg hemp]
      exact detectLoop_filter _ (fun t ht => hsent t.entry (key t ht).1)
  · intro s hsm hnone hmem
    rcases c3 s hmem with hm | ⟨_, hsome⟩
    · exact hsent s hsm hm
    · rw [hnone] at hsome
      simp at hsome

/-- Witness for C10 on a small schedule with one hole and one unparseable
row. -/
theorem c10_gap_pass_structure_witness :
    (∀ s ∈ demoShows, ¬ s.title = missingTitle)
    ∧ (detectTimeGaps demoShows).filter (fun x => !(x.title == missingTitle))
      = (sortedTimedShows demoShows).map (fun t => t.entry) :=
  ⟨by decide, (c10_gap_pass_structure demoShows (by decide)).1⟩

end Sched
